import Mathlib

/-!
Verification of the registration-ID allocator of `app.py` (registrants
management UI).  The two operations under study are
`get_next_registration_id` (app.py:288-349) and
`compute_vacant_registration_ids` (app.py:351-476), together with the static
configuration they read (`GENDER_INFO`, `BOOK_STRUCTURES`, `MISSING_COUPONS`,
app.py:33-58).

The Python code is embedded shallowly: the registrant collection that the
Python functions load from disk is passed as an explicit argument, Python
string/`int` operations are modelled on `String`/`List Char`/`Nat`
(restricted to ASCII, which covers every string the configuration and the
claims involve), and the `KeyError` raised by `GENDER_INFO[gender]` for an
unknown gender (surfaced as a rejected request by the API routes) is
modelled by `Option`.
-/

namespace App

/-! ## Decimal strings

Helpers that model Python's decimal formatting and parsing on ASCII data.
All are structurally recursive so that the kernel can evaluate them.
-/

/-- Decimal digit values of `n`, least significant first (`[]` for `0`).
The first argument is fuel; `n` itself is always sufficient fuel. -/
def toDigitsRev (fuel n : Nat) : List Nat :=
  match fuel with
  | 0 => []
  | fuel + 1 => if n = 0 then [] else n % 10 :: toDigitsRev fuel (n / 10)

/-- Decimal digit values of `n`, least significant first. -/
def natDigitsRev (n : Nat) : List Nat :=
  toDigitsRev n n

/-- The decimal digit characters of `n`, most significant first: the
characters Python prints for a nonnegative `int`. -/
def natDigits (n : Nat) : List Char :=
  if n = 0 then ['0'] else (natDigitsRev n).reverse.map Nat.digitChar

/-- Value of a list of decimal digit characters, most significant first
(leading zeros allowed). -/
def digitsToNat (l : List Char) : Nat :=
  l.foldl (fun a c => a * 10 + (c.toNat - '0'.toNat)) 0

/-- Python's `f"{n:04d}"` for a nonnegative `n`: the decimal digits of `n`,
left-padded with `'0'` to at least four characters (app.py:349, 433, 447). -/
def pad4 (n : Nat) : String :=
  ⟨List.replicate (4 - (natDigits n).length) '0' ++ natDigits n⟩

/-- Python's `s.split('-')[-1]`: the suffix of `s` after its last `'-'`
(the whole string when no `'-'` occurs).  `split` always returns a
nonempty list, so the `[-1]` indexing never fails. -/
def lastSegChars : List Char → List Char → List Char
  | [], cur => cur.reverse
  | c :: cs, cur => if c = '-' then lastSegChars cs [] else lastSegChars cs (c :: cur)

/-- Python's `s.split('-')[-1]` on a `String`. -/
def lastSeg (s : String) : String :=
  ⟨lastSegChars s.data []⟩

/-- Python's `s.startswith(p)`. -/
def strStartsWith (s p : String) : Bool :=
  p.data.isPrefixOf s.data

/-- Python's `s.upper()` (ASCII; every string in the configuration and the
claims is ASCII). -/
def strUpper (s : String) : String :=
  ⟨s.data.map Char.toUpper⟩

/-- ASCII whitespace, as stripped by Python's `int(str)`. -/
def isSpaceChar (c : Char) : Bool :=
  c = ' ' || c = '\t' || c = '\n' || c = '\r'

/-- Python's `int(s)` for the strings reachable here, as `Option`:
whitespace is stripped, an optional leading `'+'` is allowed, and a
nonempty all-digit remainder parses; anything else raises `ValueError`
(`none`).  A `'-'` sign never occurs because every call site parses a
segment produced by `split('-')`, which cannot contain `'-'`; underscore
digit grouping and non-ASCII digits are likewise out of scope. -/
def pyInt (s : String) : Option Nat :=
  let t := ((s.data.dropWhile isSpaceChar).reverse.dropWhile isSpaceChar).reverse
  let t := match t with
    | '+' :: rest => rest
    | _ => t
  if !t.isEmpty && t.all Char.isDigit then some (digitsToNat t) else none

/-! ## The first-gap search

The loop at app.py:344-347:
```
next_number = 1
while next_number in taken:
    next_number += 1
```
modelled with explicit fuel (`taken.length + 1` steps always suffice,
as the visited numbers are distinct members of `taken`). -/

/-- One fuelled step of the `while next_number in taken` loop. -/
def nextFreeAux (taken : List Nat) : Nat → Nat → Nat
  | 0, n => n
  | fuel + 1, n => if n ∈ taken then nextFreeAux taken fuel (n + 1) else n

/-- The lowest-unused-number search of app.py:344-347: the value of
`next_number` after the loop, starting from `1`. -/
def nextFree (taken : List Nat) : Nat :=
  nextFreeAux taken (taken.length + 1) 1

/-! ## Data model and static configuration -/

/-- A registrant record; the allocator reads only its `registration_id`
string (`reg.get('registration_id', '')`, app.py:303, 387). -/
structure Registrant where
  registration_id : String
deriving DecidableEq

/-- `GENDER_INFO[gender]['short']` (app.py:33-36): `Male ↦ B`,
`Female ↦ G`; any other key raises `KeyError` (`none`). -/
def genderShort (gender : String) : Option String :=
  if gender = "Male" then some "B"
  else if gender = "Female" then some "G"
  else none

/-- `MISSING_COUPONS` (app.py:56-58). -/
def MISSING_COUPONS : List String :=
  ["SC-B-0051"]

/-- `BOOK_STRUCTURES` (app.py:44-51): the configured ticket-book ranges per
`(group, gender)` pair; `none` models absence from the dict. -/
def BOOK_STRUCTURES (k : String × String) : Option (List (Nat × Nat)) :=
  if k = ("SC", "Male") then some [(1, 50), (51, 100), (101, 150)]
  else if k = ("SC", "Female") then some [(1, 50)]
  else if k = ("AR", "Male") then some [(1, 50), (51, 100), (101, 150)]
  else if k = ("AR", "Female") then some [(1, 50), (51, 100)]
  else if k = ("CO", "Male") then some [(1, 50), (51, 100), (101, 150)]
  else if k = ("CO", "Female") then some [(1, 35), (36, 50)]
  else none

/-! ## Building the `taken` set

app.py builds `taken` (a Python set) by three scans; we keep the scan
results as lists, which is equivalent because `taken` is only ever tested
for membership. -/

/-- The contribution of one registrant record to `taken`
(app.py:302-309 and 386-393): the parsed trailing segment when the ID
starts with the prefix (case-sensitively); parse failures contribute
nothing (`except: continue`). -/
def regEntry (pref : String) (reg : Registrant) : Option Nat :=
  if strStartsWith reg.registration_id pref then pyInt (lastSeg reg.registration_id) else none

/-- Sequence numbers taken by existing registrants (app.py:300-309,
app.py:384-393). -/
def takenFromRegistrants (pref : String) (registrants : List Registrant) : List Nat :=
  registrants.filterMap (regEntry pref)

/-- Sequence numbers contributed by `ignore_ids` (app.py:311-323):
matched case-insensitively after upper-casing; parse failures skipped.
Python's `if ignore_ids:` guard is a no-op here since iterating an empty
list adds nothing. -/
def takenFromIgnore (pref : String) (ignore_ids : List String) : List Nat :=
  ignore_ids.filterMap fun iid =>
    let iid_up := strUpper iid
    if strStartsWith iid_up (strUpper pref) then pyInt (lastSeg iid_up) else none

/-- Sequence numbers contributed by the missing coupons (app.py:328-342
and 395-410): matched case-insensitively; parse failures skipped. -/
def takenFromMissing (pref : String) : List Nat :=
  MISSING_COUPONS.filterMap fun missing =>
    let m_up := strUpper missing
    if strStartsWith m_up (strUpper pref) then pyInt (lastSeg m_up) else none

/-! ## get_next_registration_id -/

/-- The body of `get_next_registration_id` after the gender short code has
been resolved: build `taken` from registrants, `ignore_ids` and missing
coupons, then format the first gap (app.py:300-349). -/
def nextIdCore (registrants : List Registrant) (pref : String) (ignore_ids : List String) : String :=
  let taken := takenFromRegistrants pref registrants
      ++ takenFromIgnore pref ignore_ids ++ takenFromMissing pref
  pref ++ pad4 (nextFree taken)

/-- `get_next_registration_id(group, gender, ignore_ids)` (app.py:288-349).
The registrant collection the Python code loads from disk is the first
argument; an unknown gender raises `KeyError` at
`GENDER_INFO[gender]['short']` (app.py:297), modelled as `none`. -/
def get_next_registration_id (registrants : List Registrant) (group gender : String)
    (ignore_ids : List String) : Option String :=
  match genderShort gender with
  | none => none
  | some gs => some (nextIdCore registrants (group ++ "-" ++ gs ++ "-") ignore_ids)

/-! ## compute_vacant_registration_ids -/

/-- One entry of the `books` metadata list (app.py:434-439): the book's
`[start, end]` range, whether any number in it is taken (`started`),
whether a gap was found (`vacancy`), and the gap (`first_gap`). -/
structure BookMeta where
  range : Nat × Nat
  started : Bool
  vacancy : Bool
  first_gap : Option Nat
deriving DecidableEq

/-- The dict returned by `compute_vacant_registration_ids`
(app.py:472-476). -/
structure VacantResult where
  next_id : String
  options : List String
  books : List BookMeta
deriving DecidableEq

/-- The per-book body of the loop at app.py:417-439: restrict `taken` to
the book's range, mark the book started when that restriction is nonempty,
and scan `start..end` for the first number not in it. -/
def bookMetaOf (taken : List Nat) (b : Nat × Nat) : BookMeta :=
  let nums := taken.filter fun n => decide (b.1 ≤ n) && decide (n ≤ b.2)
  if nums.isEmpty then ⟨b, false, false, none⟩
  else
    match (List.range' b.1 (b.2 + 1 - b.1)).find? (fun c => decide (c ∉ nums)) with
    | some g => ⟨b, true, true, some g⟩
    | none => ⟨b, true, false, none⟩

/-- The option string the loop at app.py:417-433 appends for one book:
present exactly when the book is started (its slice of `taken` is
nonempty) and the ascending scan of its range finds a gap. -/
def bookOption (taken : List Nat) (pref : String) (b : Nat × Nat) : Option String :=
  let nums := taken.filter fun n => decide (b.1 ≤ n) && decide (n ≤ b.2)
  if nums.isEmpty then none
  else
    match (List.range' b.1 (b.2 + 1 - b.1)).find? (fun c => decide (c ∉ nums)) with
    | some g => some (pref ++ pad4 g)
    | none => none

/-- Python's `int(rid.split('-')[-1])` used as a sort/min key
(app.py:460, 468), with `0` standing in for the (handled) failure case. -/
def numKey (rid : String) : Nat :=
  (pyInt (lastSeg rid)).getD 0

/-- Whether every option's numeric suffix parses; when one does not,
Python's `min`/`sort` calls raise and the `except` branches keep the
original value (app.py:459-462, 467-470). -/
def allKeysParse (l : List String) : Bool :=
  l.all fun r => (pyInt (lastSeg r)).isSome

/-- Stable insertion of `x` into a list sorted by `numKey`, placing `x`
after earlier elements with an equal key. -/
def insertByKey (x : String) : List String → List String
  | [] => [x]
  | y :: ys => if numKey x ≤ numKey y then x :: y :: ys else y :: insertByKey x ys

/-- Stable ascending sort by `numKey`: extensionally Python's
`list.sort(key=...)`, which is a stable sort by the same key. -/
def sortByKey : List String → List String
  | [] => []
  | x :: xs => insertByKey x (sortByKey xs)

/-- The tail of `compute_vacant_registration_ids` (app.py:455-476):
`next_id` is the numerically smallest option (`min` keeps the first on a
tie; on a key parse failure the `except` takes `options[0]`), falling back
to the global next gap when there are no options; then the options are
sorted by numeric suffix (left unchanged if a key fails to parse, since
CPython's sort computes all keys before moving any element). -/
def finishResult (registrants : List Registrant) (pref : String)
    (options : List String) (books_meta : List BookMeta) : VacantResult :=
  let next_id :=
    match options with
    | [] => nextIdCore registrants pref []
    | o :: os =>
      if allKeysParse (o :: os) then
        os.foldl (fun best r => if numKey r < numKey best then r else best) o
      else o
  let options' := if allKeysParse options then sortByKey options else options
  ⟨next_id, options', books_meta⟩

/-- The configured-books path of `compute_vacant_registration_ids`
(app.py:384-476): build `taken` from registrants and missing coupons,
derive per-book metadata and options, and when no book is started replace
the options with the first gap of the first book and patch that book's
metadata (app.py:441-453).  `book_defs = []` would make Python's
`book_defs[0]` raise `IndexError` (`none`); it is unreachable for the
configured `BOOK_STRUCTURES`. -/
def vacantCore (registrants : List Registrant) (pref : String)
    (book_defs : List (Nat × Nat)) : Option VacantResult :=
  let taken := takenFromRegistrants pref registrants ++ takenFromMissing pref
  let metas := book_defs.map (bookMetaOf taken)
  let opts := book_defs.filterMap (bookOption taken pref)
  if metas.any (fun m => m.started) then
    some (finishResult registrants pref opts metas)
  else
    match book_defs with
    | [] => none
    | b0 :: _ =>
      match (List.range' b0.1 (b0.2 + 1 - b0.1)).find? (fun c => decide (c ∉ taken)) with
      | some c =>
        let metas1 :=
          match metas with
          | [] => []
          | m0 :: rest => { m0 with started := false, vacancy := true, first_gap := some c } :: rest
        some (finishResult registrants pref [pref ++ pad4 c] metas1)
      | none => some (finishResult registrants pref opts metas)

/-- `compute_vacant_registration_ids(group, gender)` (app.py:351-476).
A pair absent from `BOOK_STRUCTURES` falls back to the global next gap
(app.py:375-378); that fallback propagates the `KeyError` of an unknown
gender.  For a configured pair the gender is necessarily `Male` or
`Female`, so the inner `genderShort` match never yields `none` there. -/
def compute_vacant_registration_ids (registrants : List Registrant)
    (group gender : String) : Option VacantResult :=
  match BOOK_STRUCTURES (group, gender) with
  | none =>
    (get_next_registration_id registrants group gender []).map fun fb => ⟨fb, [fb], []⟩
  | some book_defs =>
    match genderShort gender with
    | none => none
    | some gs => vacantCore registrants (group ++ "-" ++ gs ++ "-") book_defs

/-! ## The stateful wrappers

The Python functions read the registrant collection from disk
(`load_registrants()`, app.py:296/380) and never call `save_registrants`
or `save_revenues`; the static configuration consists of module-level
constants.  We model the mutable server state explicitly and the two
operations as state transformers, which — mirroring the absence of any
write in their bodies — return the state unchanged. -/

/-- A revenue ledger entry (the fields the application writes elsewhere;
the allocator never touches them). -/
structure RevenueEntry where
  amount : Int
  date : String
  comments : String
deriving DecidableEq

/-- The mutable on-disk state the application reads and writes:
`registrants.json` and `revenues.json`. -/
structure AppState where
  registrants : List Registrant
  revenues : List RevenueEntry
deriving DecidableEq

/-- `get_next_registration_id` as a state transformer: loads the
registrants from the state, computes, writes nothing. -/
def get_next_id_op (st : AppState) (group gender : String)
    (ignore_ids : List String) : AppState × Option String :=
  (st, get_next_registration_id st.registrants group gender ignore_ids)

/-- `compute_vacant_registration_ids` as a state transformer: loads the
registrants from the state, computes, writes nothing. -/
def compute_vacant_op (st : AppState) (group gender : String) :
    AppState × Option VacantResult :=
  (st, compute_vacant_registration_ids st.registrants group gender)

/-- Value of a digit list, least significant first (specification side of
the decimal round trip). -/
def fromRevD (ds : List Nat) : Nat :=
  ds.foldr (fun d a => d + 10 * a) 0

/-- Fixture: every number of the first `(AR, Female)` book `[1, 50]`
assigned except `23`, and exactly `52` assigned in the second book
`[51, 100]`. -/
def regsBookReuseAR : List Registrant :=
  (((List.range' 1 50).filter fun n => n != 23).map fun n => ⟨"AR-G-" ++ pad4 n⟩)
    ++ [⟨"AR-G-0052"⟩]

/-- Fixture: the same occupancy pattern for `(SC, Male)`. -/
def regsBookReuseSC : List Registrant :=
  (((List.range' 1 50).filter fun n => n != 23).map fun n => ⟨"SC-B-" ++ pad4 n⟩)
    ++ [⟨"SC-B-0052"⟩]

/-! ## Decimal round trip: `pad4` is injective and decodable -/

theorem toDigitsRev_lt10 (fuel n : Nat) : ∀ d ∈ toDigitsRev fuel n, d < 10 := by
  induction fuel generalizing n with
  | zero => intro d hd; simp [toDigitsRev] at hd
  | succ fuel ih =>
    intro d hd
    unfold toDigitsRev at hd
    by_cases hn : n = 0
    · simp [hn] at hd
    · simp only [hn, if_false] at hd
      rcases List.mem_cons.1 hd with h | h
      · subst h; exact Nat.mod_lt _ (by norm_num)
      · exact ih _ d h

theorem fromRevD_toDigitsRev (fuel n : Nat) (h : n ≤ fuel) :
    fromRevD (toDigitsRev fuel n) = n := by
  induction fuel generalizing n with
  | zero => interval_cases n; rfl
  | succ fuel ih =>
    unfold toDigitsRev
    by_cases hn : n = 0
    · simp [hn, fromRevD]
    · simp only [hn, if_false]
      have hdiv : n / 10 ≤ fuel := by
        have := Nat.div_lt_self (Nat.pos_of_ne_zero hn) (by norm_num : 1 < 10)
        omega
      show n % 10 + 10 * fromRevD (toDigitsRev fuel (n / 10)) = n
      rw [ih _ hdiv]
      omega

theorem charVal_digitChar : ∀ d, d < 10 → (Nat.digitChar d).toNat - '0'.toNat = d := by
  decide

theorem digitsToNat_append_last (xs : List Char) (c : Char) :
    digitsToNat (xs ++ [c]) = digitsToNat xs * 10 + (c.toNat - '0'.toNat) := by
  simp [digitsToNat, List.foldl_append]

theorem digitsToNat_rev_map (ds : List Nat) (h : ∀ d ∈ ds, d < 10) :
    digitsToNat (ds.reverse.map Nat.digitChar) = fromRevD ds := by
  induction ds with
  | nil => rfl
  | cons d ds ih =>
    simp only [List.reverse_cons, List.map_append, List.map_cons, List.map_nil]
    rw [digitsToNat_append_last, ih fun x hx => h x (List.mem_cons_of_mem _ hx),
      charVal_digitChar d (h d (List.mem_cons_self _ _))]
    show fromRevD ds * 10 + d = d + 10 * fromRevD ds
    omega

theorem digitsToNat_natDigits (n : Nat) : digitsToNat (natDigits n) = n := by
  unfold natDigits
  by_cases hn : n = 0
  · subst hn; rfl
  · simp only [hn, if_false]
    unfold natDigitsRev
    rw [digitsToNat_rev_map _ (toDigitsRev_lt10 n n)]
    exact fromRevD_toDigitsRev n n le_rfl

theorem digitsToNat_replicate_zeros (k : Nat) (l : List Char) :
    digitsToNat (List.replicate k '0' ++ l) = digitsToNat l := by
  induction k with
  | zero => rfl
  | succ k ih =>
    rw [List.replicate_succ, List.cons_append]
    show List.foldl _ (0 * 10 + ('0'.toNat - '0'.toNat)) _ = _
    have h0 : 0 * 10 + ('0'.toNat - '0'.toNat) = 0 := by decide
    rw [h0]
    exact ih

theorem digitsToNat_pad4 (n : Nat) : digitsToNat (pad4 n).data = n := by
  show digitsToNat (List.replicate _ '0' ++ natDigits n) = n
  rw [digitsToNat_replicate_zeros, digitsToNat_natDigits]

theorem pad4_inj {a b : Nat} (h : pad4 a = pad4 b) : a = b := by
  have := congrArg (fun s => digitsToNat s.data) h
  simpa [digitsToNat_pad4] using this

theorem str_data_inj {a b : String} (h : a.data = b.data) : a = b := by
  cases a; cases b; exact congrArg String.mk h

theorem append_pad4_inj {pref : String} {a b : Nat}
    (h : pref ++ pad4 a = pref ++ pad4 b) : a = b := by
  have hd := congrArg String.data h
  rw [String.data_append, String.data_append] at hd
  exact pad4_inj (str_data_inj (List.append_cancel_left hd))

/-! ## Specification of the first-gap search -/

theorem nextFreeAux_spec (taken : List Nat) :
    ∀ fuel n, (taken.toFinset.filter fun m => n ≤ m).card < fuel →
      nextFreeAux taken fuel n ∉ taken ∧ n ≤ nextFreeAux taken fuel n ∧
        ∀ m, n ≤ m → m ∉ taken → nextFreeAux taken fuel n ≤ m := by
  intro fuel
  induction fuel with
  | zero => intro n h; exact absurd h (Nat.not_lt_zero _)
  | succ fuel ih =>
    intro n hcard
    unfold nextFreeAux
    by_cases hn : n ∈ taken
    · rw [if_pos hn]
      have hsub : (taken.toFinset.filter fun m => n + 1 ≤ m) ⊂
          (taken.toFinset.filter fun m => n ≤ m) := by
        rw [Finset.ssubset_iff_of_subset]
        · exact ⟨n, Finset.mem_filter.2 ⟨List.mem_toFinset.2 hn, le_rfl⟩,
            fun hmem => by have := (Finset.mem_filter.1 hmem).2; omega⟩
        · intro m hm
          rcases Finset.mem_filter.1 hm with ⟨hm1, hm2⟩
          exact Finset.mem_filter.2 ⟨hm1, by omega⟩
      have hlt := Finset.card_lt_card hsub
      obtain ⟨h1, h2, h3⟩ := ih (n + 1) (by omega)
      refine ⟨h1, by omega, fun m hm hmt => ?_⟩
      have : m ≠ n := fun he => hmt (he ▸ hn)
      exact h3 m (by omega) hmt
    · rw [if_neg hn]
      exact ⟨hn, le_rfl, fun m hm _ => hm⟩

theorem nextFree_spec (taken : List Nat) :
    nextFree taken ∉ taken ∧ 0 < nextFree taken ∧
      ∀ m, 0 < m → m ∉ taken → nextFree taken ≤ m := by
  have h := nextFreeAux_spec taken (taken.length + 1) 1 (by
    have h1 : (taken.toFinset.filter fun m => 1 ≤ m).card ≤ taken.toFinset.card :=
      Finset.card_filter_le _ _
    have h2 := List.toFinset_card_le taken
    omega)
  exact ⟨h.1, h.2.1, h.2.2⟩

theorem nextIdCore_ne (registrants : List Registrant) (pref : String)
    (ignore_ids : List String) (k : Nat)
    (hk : k ∈ takenFromRegistrants pref registrants
      ++ takenFromIgnore pref ignore_ids ++ takenFromMissing pref) :
    nextIdCore registrants pref ignore_ids ≠ pref ++ pad4 k := by
  intro h
  simp only [nextIdCore] at h
  have := append_pad4_inj h
  exact absurd hk (this ▸ (nextFree_spec _).1)

/-! ## Lemmas about the vacancy resolver -/

theorem mem_insertByKey {a x : String} {l : List String} :
    a ∈ insertByKey x l ↔ a = x ∨ a ∈ l := by
  induction l with
  | nil => simp [insertByKey]
  | cons y ys ih =>
    unfold insertByKey
    split
    · simp
    · simp only [List.mem_cons, ih]
      tauto

theorem mem_sortByKey {a : String} {l : List String} :
    a ∈ sortByKey l ↔ a ∈ l := by
  induction l with
  | nil => simp [sortByKey]
  | cons x xs ih =>
    simp [sortByKey, mem_insertByKey, ih]

theorem foldl_min_mem : ∀ (os : List String) (o : String),
    os.foldl (fun best r => if numKey r < numKey best then r else best) o ∈ o :: os := by
  intro os
  induction os with
  | nil => intro o; exact List.mem_cons_self _ _
  | cons r os ih =>
    intro o
    rw [List.foldl_cons]
    rcases List.mem_cons.1 (ih (if numKey r < numKey o then r else o)) with h | h
    · rw [h]
      split
      · exact List.mem_cons_of_mem _ (List.mem_cons_self _ _)
      · exact List.mem_cons_self _ _
    · exact List.mem_cons_of_mem _ (List.mem_cons_of_mem _ h)

theorem finishResult_next_mem_or (registrants : List Registrant) (pref : String)
    (options : List String) (books_meta : List BookMeta) :
    (finishResult registrants pref options books_meta).next_id ∈ options ∨
      (finishResult registrants pref options books_meta).next_id
        = nextIdCore registrants pref [] := by
  unfold finishResult
  cases options with
  | nil => exact Or.inr rfl
  | cons o os =>
    refine Or.inl ?_
    show (if allKeysParse (o :: os) then
      os.foldl (fun best r => if numKey r < numKey best then r else best) o else o) ∈ o :: os
    split
    · exact foldl_min_mem os o
    · exact List.mem_cons_self _ _

theorem finishResult_options_sub {registrants : List Registrant} {pref : String}
    {options : List String} {books_meta : List BookMeta} {x : String}
    (hx : x ∈ (finishResult registrants pref options books_meta).options) :
    x ∈ options := by
  unfold finishResult at hx
  dsimp only at hx
  split at hx
  · exact mem_sortByKey.1 hx
  · exact hx

theorem mem_bookOptions {taken : List Nat} {pref : String} {defs : List (Nat × Nat)}
    {x : String} (hx : x ∈ defs.filterMap (bookOption taken pref)) :
    ∃ g, g ∉ taken ∧ x = pref ++ pad4 g := by
  rcases List.mem_filterMap.1 hx with ⟨b, hb, hfb⟩
  simp only [bookOption] at hfb
  split at hfb
  · exact absurd hfb (by simp)
  · split at hfb
    next g hfind =>
      injection hfb with hfb
      have hne : g ∉ taken.filter fun n => decide (b.1 ≤ n) && decide (n ≤ b.2) := by
        have := List.find?_some hfind
        simpa only [decide_eq_true_eq] using this
      have hmem := List.mem_of_find?_eq_some hfind
      rw [List.mem_range'_1] at hmem
      refine ⟨g, fun hg => hne ?_, hfb.symm⟩
      exact List.mem_filter.2 ⟨hg, by simp; omega⟩
    next => exact absurd hfb (by simp)

theorem finishResult_safe {registrants : List Registrant} {pref : String}
    {options : List String} {books_meta : List BookMeta} {k : Nat}
    (hopts : (pref ++ pad4 k) ∉ options)
    (hk : k ∈ takenFromRegistrants pref registrants
      ++ takenFromIgnore pref [] ++ takenFromMissing pref) :
    (finishResult registrants pref options books_meta).next_id ≠ pref ++ pad4 k ∧
      (pref ++ pad4 k) ∉ (finishResult registrants pref options books_meta).options := by
  constructor
  · intro h
    rcases finishResult_next_mem_or registrants pref options books_meta with hm | hm
    · exact hopts (h ▸ hm)
    · exact nextIdCore_ne registrants pref [] k hk (hm.symm.trans h)
  · exact fun h => hopts (finishResult_options_sub h)

/-- Neither the suggested `next_id` nor any quick-select option of the
configured-books path can name a sequence number that is in the `taken`
set (in particular a missing-coupon number). -/
theorem vacantCore_not_offered (registrants : List Registrant) (pref : String)
    (defs : List (Nat × Nat)) (k : Nat)
    (hk : k ∈ takenFromRegistrants pref registrants ++ takenFromMissing pref) :
    ∀ res, vacantCore registrants pref defs = some res →
      res.next_id ≠ pref ++ pad4 k ∧ (pref ++ pad4 k) ∉ res.options := by
  intro res h
  have hk' : k ∈ takenFromRegistrants pref registrants
      ++ takenFromIgnore pref [] ++ takenFromMissing pref := by
    rcases List.mem_append.1 hk with h1 | h1
    · exact List.mem_append_left _ (List.mem_append_left _ h1)
    · exact List.mem_append_right _ h1
  have hoptsraw : (pref ++ pad4 k) ∉
      defs.filterMap (bookOption (takenFromRegistrants pref registrants
        ++ takenFromMissing pref) pref) := by
    intro hmem
    rcases mem_bookOptions hmem with ⟨g, hg, hgx⟩
    exact hg (append_pad4_inj hgx ▸ hk)
  simp only [vacantCore] at h
  split at h
  · injection h with h
    exact h ▸ finishResult_safe hoptsraw hk'
  · split at h
    · exact absurd h (by simp)
    · split at h
      next c hfind =>
        have hcnot : c ∉ takenFromRegistrants pref registrants ++ takenFromMissing pref := by
          simpa using List.find?_some hfind
        have hck : (pref ++ pad4 k) ∉ [pref ++ pad4 c] := by
          intro hmem
          rcases List.mem_singleton.1 hmem with hmem
          exact hcnot (append_pad4_inj hmem.symm ▸ hk)
        injection h with h
        exact h ▸ finishResult_safe hck hk'
      next =>
        injection h with h
        exact h ▸ finishResult_safe hoptsraw hk'

theorem finishResult_singleton (registrants : List Registrant) (pref : String)
    (x : String) (books_meta : List BookMeta) :
    finishResult registrants pref [x] books_meta = ⟨x, [x], books_meta⟩ := by
  cases h : allKeysParse [x] <;>
    simp [finishResult, h, sortByKey, insertByKey]

/-- When no taken number lies in any configured book, no book is started:
the override at app.py:441-453 fires and offers exactly the first gap of
the first book, which is that book's start. -/
theorem vacantCore_fresh (registrants : List Registrant) (pref : String)
    (b0 : Nat × Nat) (bs : List (Nat × Nat)) (h01 : b0.1 ≤ b0.2)
    (hfresh : ∀ n ∈ takenFromRegistrants pref registrants ++ takenFromMissing pref,
      ∀ b ∈ b0 :: bs, ¬(b.1 ≤ n ∧ n ≤ b.2)) :
    vacantCore registrants pref (b0 :: bs) =
      some ⟨pref ++ pad4 b0.1, [pref ++ pad4 b0.1],
        ⟨b0, false, true, some b0.1⟩ :: bs.map fun b => ⟨b, false, false, none⟩⟩ := by
  set taken := takenFromRegistrants pref registrants ++ takenFromMissing pref with htk
  have hmeta : ∀ b ∈ b0 :: bs, bookMetaOf taken b = ⟨b, false, false, none⟩ := by
    intro b hb
    have hfil : taken.filter (fun n => decide (b.1 ≤ n) && decide (n ≤ b.2)) = [] := by
      rw [List.filter_eq_nil_iff]
      intro n hn
      simpa using fun h1 h2 => hfresh n hn b hb ⟨h1, h2⟩
    simp [bookMetaOf, hfil]
  have hmetas : (b0 :: bs).map (bookMetaOf taken) =
      ⟨b0, false, false, none⟩ :: bs.map fun b => ⟨b, false, false, none⟩ := by
    rw [List.map_cons, hmeta b0 (List.mem_cons_self _ _)]
    congr 1
    exact List.map_congr_left fun b hb => hmeta b (List.mem_cons_of_mem _ hb)
  have hb01 : b0.1 ∉ taken := fun h =>
    hfresh b0.1 h b0 (List.mem_cons_self _ _) ⟨le_rfl, h01⟩
  have hlen : b0.2 + 1 - b0.1 = (b0.2 - b0.1) + 1 := by omega
  have hfind : (List.range' b0.1 (b0.2 + 1 - b0.1)).find? (fun c => decide (c ∉ taken))
      = some b0.1 := by
    rw [hlen, List.range'_succ, List.find?_cons]
    simp [hb01]
  have hany : ¬(((⟨b0, false, false, none⟩ : BookMeta) :: bs.map fun b =>
      (⟨b, false, false, none⟩ : BookMeta)).any (fun m => m.started) = true) := by
    simp
    intro x x1 x2 _ hx
    rw [← hx]
  simp only [vacantCore, hmetas, hfind]
  rw [if_neg hany]
  rw [finishResult_singleton]

/-! ## Congruence in the registrant collection -/

theorem takenFromRegistrants_middle (pref : String) (l1 l2 : List Registrant)
    (r : Registrant) (hr : regEntry pref r = none) :
    takenFromRegistrants pref (l1 ++ r :: l2) = takenFromRegistrants pref (l1 ++ l2) := by
  simp [takenFromRegistrants, List.filterMap_append, List.filterMap_cons, hr]

theorem nextIdCore_congr {regs regs' : List Registrant} (pref : String)
    (ignore_ids : List String)
    (h : takenFromRegistrants pref regs = takenFromRegistrants pref regs') :
    nextIdCore regs pref ignore_ids = nextIdCore regs' pref ignore_ids := by
  simp only [nextIdCore, h]

theorem vacantCore_congr {regs regs' : List Registrant} (pref : String)
    (defs : List (Nat × Nat))
    (h : takenFromRegistrants pref regs = takenFromRegistrants pref regs') :
    vacantCore regs pref defs = vacantCore regs' pref defs := by
  simp only [vacantCore, finishResult, nextIdCore, h]

theorem get_next_congr {regs regs' : List Registrant} (group gender : String)
    (ignore_ids : List String)
    (h : ∀ pref, takenFromRegistrants pref regs = takenFromRegistrants pref regs') :
    get_next_registration_id regs group gender ignore_ids
      = get_next_registration_id regs' group gender ignore_ids := by
  unfold get_next_registration_id
  cases hg : genderShort gender
  · rfl
  · exact congrArg some (nextIdCore_congr _ _ (h _))

theorem compute_vacant_congr {regs regs' : List Registrant} (group gender : String)
    (h : ∀ pref, takenFromRegistrants pref regs = takenFromRegistrants pref regs') :
    compute_vacant_registration_ids regs group gender
      = compute_vacant_registration_ids regs' group gender := by
  unfold compute_vacant_registration_ids
  cases hB : BOOK_STRUCTURES (group, gender)
  · rw [get_next_congr group gender [] h]
  · cases hg : genderShort gender
    · rfl
    · exact vacantCore_congr _ _ (h _)

/-! ## The unknown-gender failure -/

theorem BOOK_STRUCTURES_unknown_gender {group gender : String}
    (h : genderShort gender = none) : BOOK_STRUCTURES (group, gender) = none := by
  have hM : gender ≠ "Male" := by
    intro e; rw [e] at h; simp [genderShort] at h
  have hF : gender ≠ "Female" := by
    intro e; rw [e] at h; simp [genderShort] at h
  simp [BOOK_STRUCTURES, Prod.ext_iff, hM, hF]

/-! ## The claims -/

/-- C1: for any finite set `taken` of positive integers, the
lowest-unused-number search at the end of `get_next_registration_id`
returns the unique smallest positive integer not in `taken`: the result is
positive, unused, and a lower bound of every unused positive integer; in
particular `taken = [1,2,4]` yields `3`, `[]` yields `1`, and `[1,2,3]`
yields `4`. -/
theorem c1_gap_correctness :
    (∀ taken : List Nat, nextFree taken ∉ taken ∧ 0 < nextFree taken ∧
      ∀ m, 0 < m → m ∉ taken → nextFree taken ≤ m) ∧
    nextFree [1, 2, 4] = 3 ∧ nextFree [] = 1 ∧ nextFree [1, 2, 3] = 4 :=
  ⟨nextFree_spec, rfl, rfl, rfl⟩

/-- Witness for C1 at the concrete input `taken = [1,2,4]`. -/
theorem c1_gap_correctness_witness :
    0 < 3 ∧ (3 : Nat) ∉ [1, 2, 4] ∧ nextFree [1, 2, 4] ≤ 3 :=
  ⟨by decide, by decide, (c1_gap_correctness.1 [1, 2, 4]).2.2 3 (by decide) (by decide)⟩

/-- C2 counterexample: an unknown group code is NOT rejected.  With the
unknown group `"ZZ"` and the valid gender `"Male"`, both operations
succeed and return a result built from the unknown group as a prefix,
refuting the claim that an unknown group fails with no result. -/
theorem c2_counterexample :
    get_next_registration_id [] "ZZ" "Male" [] = some "ZZ-B-0001" ∧
    compute_vacant_registration_ids [] "ZZ" "Male" =
      some ⟨"ZZ-B-0001", ["ZZ-B-0001"], []⟩ :=
  ⟨rfl, rfl⟩

/-- C2 (amended): a gender code outside the configured enumeration makes
both `get_next_registration_id` (via the `GENDER_INFO[gender]` lookup) and
`compute_vacant_registration_ids` (whose fallback calls the former, and
whose configured table has no key with such a gender) fail with no result;
group codes, by contrast, are never validated. -/
theorem c2_unknown_gender_rejected :
    ∀ (registrants : List Registrant) (group gender : String)
      (ignore_ids : List String), genderShort gender = none →
      get_next_registration_id registrants group gender ignore_ids = none ∧
      compute_vacant_registration_ids registrants group gender = none := by
  intro registrants group gender ignore_ids h
  constructor
  · simp [get_next_registration_id, h]
  · simp [compute_vacant_registration_ids, BOOK_STRUCTURES_unknown_gender h,
      get_next_registration_id, h]

/-- Witness for the amended C2 at the unknown gender `"Unknown"`. -/
theorem c2_unknown_gender_rejected_witness :
    get_next_registration_id [] "AR" "Unknown" [] = none ∧
    compute_vacant_registration_ids [] "AR" "Unknown" = none :=
  c2_unknown_gender_rejected [] "AR" "Unknown" [] rfl

/-- C3 counterexample: for `(AR, Female)` — whose configured books are
exactly `[1,50], [51,100]` — with the first book fully assigned except
`23` and exactly `52` assigned in the second, the options are
`["AR-G-0023", "AR-G-0051"]`: the second book's first gap is `51`, not
`53`, so the claimed `["…-0023", "…-0053"]` is wrong for this pair. -/
theorem c3_counterexample :
    compute_vacant_registration_ids regsBookReuseAR "AR" "Female" =
      some ⟨"AR-G-0023", ["AR-G-0023", "AR-G-0051"],
        [⟨(1, 50), true, true, some 23⟩, ⟨(51, 100), true, true, some 51⟩]⟩ ∧
    (["AR-G-0023", "AR-G-0051"] : List String) ≠ ["AR-G-0023", "AR-G-0053"] :=
  ⟨rfl, by decide⟩

/-- C3 (amended): one first-gap option per started book, ascending,
where the first gap also skips missing-coupon numbers: for `(SC, Male)`,
whose missing coupon `SC-B-0051` occupies `51`, the scenario yields
`options = ["SC-B-0023", "SC-B-0053"]` exactly as the spec's example
states. -/
theorem c3_book_reuse_amended :
    compute_vacant_registration_ids regsBookReuseSC "SC" "Male" =
      some ⟨"SC-B-0023", ["SC-B-0023", "SC-B-0053"],
        [⟨(1, 50), true, true, some 23⟩, ⟨(51, 100), true, true, some 53⟩,
          ⟨(101, 150), false, false, none⟩]⟩ :=
  rfl

/-- C4: for `(AR, Female)` with books `[1,50], [51,100]` and zero
registrants, `compute_vacant_registration_ids` returns exactly the one
option `AR-G-0001` with the second book's `started` flag `false`; and in
general, whenever no number of the `taken` set (registrants and missing
coupons) lies in any configured book, only the first gap of the first
book — its start — is offered. -/
theorem c4_book_start_gating :
    (compute_vacant_registration_ids [] "AR" "Female" =
      some ⟨"AR-G-0001", ["AR-G-0001"],
        [⟨(1, 50), false, true, some 1⟩, ⟨(51, 100), false, false, none⟩]⟩) ∧
    ∀ (registrants : List Registrant) (group gender gs : String)
      (b0 : Nat × Nat) (bs : List (Nat × Nat)),
      genderShort gender = some gs →
      BOOK_STRUCTURES (group, gender) = some (b0 :: bs) →
      b0.1 ≤ b0.2 →
      (∀ n ∈ takenFromRegistrants (group ++ "-" ++ gs ++ "-") registrants
          ++ takenFromMissing (group ++ "-" ++ gs ++ "-"),
        ∀ b ∈ b0 :: bs, ¬(b.1 ≤ n ∧ n ≤ b.2)) →
      compute_vacant_registration_ids registrants group gender =
        some ⟨(group ++ "-" ++ gs ++ "-") ++ pad4 b0.1,
          [(group ++ "-" ++ gs ++ "-") ++ pad4 b0.1],
          ⟨b0, false, true, some b0.1⟩ :: bs.map fun b => ⟨b, false, false, none⟩⟩ := by
  constructor
  · rfl
  · intro registrants group gender gs b0 bs hg hB h01 hfresh
    simp only [compute_vacant_registration_ids, hB, hg]
    exact vacantCore_fresh registrants _ b0 bs h01 hfresh

/-- Witness for C4: the general statement applied at `(AR, Female)` with
zero registrants. -/
theorem c4_book_start_gating_witness :
    compute_vacant_registration_ids [] "AR" "Female" =
      some ⟨"AR-G-0001", ["AR-G-0001"],
        [⟨(1, 50), false, true, some 1⟩, ⟨(51, 100), false, false, none⟩]⟩ :=
  c4_book_start_gating.2 [] "AR" "Female" "G" (1, 50) [(51, 100)] rfl rfl
    (by decide) (by intro n hn; exact absurd hn (List.not_mem_nil n))

/-- C5: with the configured missing coupon `SC-B-0051` and any registrant
collection in which no registrant holds `SC-B-0051`, neither
`get_next_registration_id` nor `compute_vacant_registration_ids` for
`(SC, Male)` ever returns or offers `SC-B-0051`: its sequence number is
always treated as taken. -/
theorem c5_missing_coupon_unavailable :
    ∀ (registrants : List Registrant) (ignore_ids : List String),
      (∀ r ∈ registrants, r.registration_id ≠ "SC-B-0051") →
      get_next_registration_id registrants "SC" "Male" ignore_ids ≠ some "SC-B-0051" ∧
      ∀ res, compute_vacant_registration_ids registrants "SC" "Male" = some res →
        res.next_id ≠ "SC-B-0051" ∧ "SC-B-0051" ∉ res.options := by
  intro registrants ignore_ids _
  have h51m : (51 : Nat) ∈ takenFromMissing "SC-B-" := by decide
  have h51 : (51 : Nat) ∈ takenFromRegistrants "SC-B-" registrants
      ++ takenFromMissing "SC-B-" := List.mem_append_right _ h51m
  have hstr : ("SC-B-0051" : String) = "SC-B-" ++ pad4 51 := rfl
  constructor
  · intro h
    have h' : nextIdCore registrants "SC-B-" ignore_ids = "SC-B-0051" :=
      Option.some.inj h
    exact nextIdCore_ne registrants "SC-B-" ignore_ids 51
      (List.mem_append_right _ h51m) (h'.trans hstr)
  · intro res hres
    have hres' : vacantCore registrants "SC-B-" [(1, 50), (51, 100), (101, 150)]
        = some res := hres
    have hsafe := vacantCore_not_offered registrants "SC-B-"
      [(1, 50), (51, 100), (101, 150)] 51 h51 res hres'
    rw [hstr]
    exact hsafe

/-- Witness for C5 at the empty registrant collection. -/
theorem c5_missing_coupon_unavailable_witness :
    (∀ r ∈ ([] : List Registrant), r.registration_id ≠ "SC-B-0051") ∧
      get_next_registration_id [] "SC" "Male" [] ≠ some "SC-B-0051" :=
  ⟨by simp, (c5_missing_coupon_unavailable [] [] (by simp)).1⟩

/-- C6: a registrant holding `AR-B-0005` contributes nothing to the taken
set when allocating for `(AR, Female)` or `(SC, Male)`: removing that
record from anywhere in the collection changes neither operation's
result, because only IDs starting with the exact
`{group}-{genderShortCode}-` prefix are counted. -/
theorem c6_prefix_isolation :
    ∀ (l1 l2 : List Registrant) (ignore_ids : List String),
      get_next_registration_id (l1 ++ ⟨"AR-B-0005"⟩ :: l2) "AR" "Female" ignore_ids
        = get_next_registration_id (l1 ++ l2) "AR" "Female" ignore_ids ∧
      get_next_registration_id (l1 ++ ⟨"AR-B-0005"⟩ :: l2) "SC" "Male" ignore_ids
        = get_next_registration_id (l1 ++ l2) "SC" "Male" ignore_ids ∧
      compute_vacant_registration_ids (l1 ++ ⟨"AR-B-0005"⟩ :: l2) "AR" "Female"
        = compute_vacant_registration_ids (l1 ++ l2) "AR" "Female" ∧
      compute_vacant_registration_ids (l1 ++ ⟨"AR-B-0005"⟩ :: l2) "SC" "Male"
        = compute_vacant_registration_ids (l1 ++ l2) "SC" "Male" := by
  intro l1 l2 ignore_ids
  have hARG := takenFromRegistrants_middle ("AR" ++ "-" ++ "G" ++ "-") l1 l2
    ⟨"AR-B-0005"⟩ rfl
  have hSCB := takenFromRegistrants_middle ("SC" ++ "-" ++ "B" ++ "-") l1 l2
    ⟨"AR-B-0005"⟩ rfl
  exact ⟨congrArg some (nextIdCore_congr _ ignore_ids hARG),
    congrArg some (nextIdCore_congr _ ignore_ids hSCB),
    vacantCore_congr _ [(1, 50), (51, 100)] hARG,
    vacantCore_congr _ [(1, 50), (51, 100), (101, 150)] hSCB⟩

/-- C7: a record whose registration ID `AR-B-notanumber` has a non-numeric
trailing segment raises no error and is never counted as taken: for every
group, gender and ignore set, both operations return exactly what they
return with the record removed; and concretely, allocating `(AR, Male)`
with only that record present succeeds with `AR-B-0001`. -/
theorem c7_malformed_resilience :
    (∀ (group gender : String) (l1 l2 : List Registrant) (ignore_ids : List String),
      get_next_registration_id (l1 ++ ⟨"AR-B-notanumber"⟩ :: l2) group gender ignore_ids
        = get_next_registration_id (l1 ++ l2) group gender ignore_ids ∧
      compute_vacant_registration_ids (l1 ++ ⟨"AR-B-notanumber"⟩ :: l2) group gender
        = compute_vacant_registration_ids (l1 ++ l2) group gender) ∧
    get_next_registration_id [⟨"AR-B-notanumber"⟩] "AR" "Male" [] = some "AR-B-0001" := by
  constructor
  · intro group gender l1 l2 ignore_ids
    have hr : ∀ pref, regEntry pref (⟨"AR-B-notanumber"⟩ : Registrant) = none := by
      intro pref
      have hnone : pyInt (lastSeg "AR-B-notanumber") = none := rfl
      simp [regEntry, hnone]
    have ht : ∀ pref, takenFromRegistrants pref (l1 ++ ⟨"AR-B-notanumber"⟩ :: l2)
        = takenFromRegistrants pref (l1 ++ l2) :=
      fun pref => takenFromRegistrants_middle pref l1 l2 _ (hr pref)
    exact ⟨get_next_congr group gender ignore_ids ht,
      compute_vacant_congr group gender ht⟩
  · rfl

/-- C8: with a fixed server state (registrant collection) and no
intervening insertion, two consecutive calls of `get_next_registration_id`
with the same group, gender and ignore set return the same ID: the second
call runs on the state left by the first, which is unchanged, and the
allocation is a deterministic function of its inputs. -/
theorem c8_idempotent_reads :
    ∀ (st : AppState) (group gender : String) (ignore_ids : List String),
      (get_next_id_op (get_next_id_op st group gender ignore_ids).1
        group gender ignore_ids).2 = (get_next_id_op st group gender ignore_ids).2 :=
  fun _ _ _ _ => rfl

/-- C9: both operations perform no writes: the server state (registrant
collection and revenue ledger) after each call equals the state before it;
the static configuration is immutable by construction (Lean constants
mirroring the module-level Python constants the functions only read). -/
theorem c9_no_writes :
    ∀ (st : AppState) (group gender : String) (ignore_ids : List String),
      (get_next_id_op st group gender ignore_ids).1 = st ∧
      (compute_vacant_op st group gender).1 = st :=
  fun _ _ _ _ => ⟨rfl, rfl⟩

end App
